

import Mathlib

set_option maxHeartbeats 1000000

/-!
Verification of the natural-language specification of
neural_lam/models/ar_model.py (class ARModel) against a shallow Lean
embedding of its code.

Tensors are modelled as total functions from index tuples to a scalar type:
a state tensor of shape (B, num_grid_nodes, d_f) becomes a function
Nat → Nat → Nat → α.  The scalar type α is a commutative ring parameter,
instantiated at ℚ for executable witnesses and at ℝ where the source takes
square roots.  Python dicts (state dicts, metric accumulators, variable
index maps) are association lists with Python dict insertion/update
semantics.  Fallible torch operations (torch.stack on an empty list, or on
a list containing None) return Except values.
-/

/-! ## Python string primitives

The source uses str.startswith, str.replace (replace every non-overlapping
occurrence, left to right), the substring test (pat in s), and tuple
comparison with str ordered lexicographically by code point.  These are
embedded below as executable functions on the character lists of Lean
strings. -/

/-- Python s.startswith(pat): pat is a prefix of s. -/
def pyStartsWith (s pat : String) : Bool :=
  pat.data.isPrefixOf s.data

/-- Replace every non-overlapping occurrence of pat by rep, scanning left
to right, as Python str.replace does.  The fuel argument bounds recursion
depth; with fuel ≥ s.length and a nonempty pattern the fuel never runs
out, since every step consumes at least one character of s. -/
def replaceAux (pat rep : List Char) : Nat → List Char → List Char
  | 0, s => s
  | fuel + 1, s =>
    if pat.isPrefixOf s && !pat.isEmpty then
      rep ++ replaceAux pat rep fuel (s.drop pat.length)
    else
      match s with
      | [] => []
      | c :: rest => c :: replaceAux pat rep fuel rest

/-- Python s.replace(pat, rep). -/
def pyReplace (s pat rep : String) : String :=
  ⟨replaceAux pat.data rep.data s.data.length s.data⟩

/-- Helper for the Python substring test: does s contain pat? -/
def containsSub (pat : List Char) : List Char → Bool
  | [] => pat.isEmpty
  | c :: rest => pat.isPrefixOf (c :: rest) || containsSub pat rest

/-- Python (pat in s) for strings. -/
def strContains (s pat : String) : Bool :=
  containsSub pat.data s.data

/-- Python comparison of strings: lexicographic on code points. -/
def charListLt : List Char → List Char → Bool
  | [], [] => false
  | [], _ :: _ => true
  | _ :: _, [] => false
  | a :: as, b :: bs =>
    if a.toNat < b.toNat then true
    else if b.toNat < a.toNat then false
    else charListLt as bs

/-- Python ≤ on (str, int) tuples: lexicographic, strings by code point. -/
def pairLe (x y : String × Int) : Bool :=
  charListLt x.1.data y.1.data || (x.1 == y.1 && decide (x.2 ≤ y.2))

/-! Basic facts about the string primitives. -/

/-! ## Python dict embedding

A Python dict is modelled as an association list with unique keys in
insertion order.  Assignment d[k] = v updates the value in place when k is
present and appends (k, v) at the end otherwise; del d[k] removes the
entry.  The definitions below implement exactly these semantics (on lists
whose keys are unique, as Python guarantees). -/

/-- Keys of the dict, in order. -/
def dictKeys {τ : Type} (d : List (String × τ)) : List String :=
  d.map Prod.fst

/-- Python (k in d). -/
def containsKey {τ : Type} (d : List (String × τ)) (k : String) : Bool :=
  d.any (fun p => p.1 == k)

/-- Python d[k] (as an Option; a miss raises KeyError in Python). -/
def dictLookup {τ : Type} : List (String × τ) → String → Option τ
  | [], _ => none
  | p :: rest, k => if p.1 = k then some p.2 else dictLookup rest k

/-- Python d[k] = v. -/
def dictInsert {τ : Type} (d : List (String × τ)) (k : String) (v : τ) :
    List (String × τ) :=
  if containsKey d k then d.map (fun p => if p.1 = k then (k, v) else p)
  else d ++ [(k, v)]

/-- Python del d[k]. -/
def dictDelete {τ : Type} (d : List (String × τ)) (k : String) :
    List (String × τ) :=
  d.filter (fun p => !(p.1 == k))

/-! ## Checkpoint key migration (ar_model.py, on_load_checkpoint, lines 833-853)

On load, if the key "g2m_gnn.grid_mlp.0.weight" is present in the
checkpoint state dict, every key starting with "g2m_gnn.grid_mlp" is
renamed with str.replace("g2m_gnn.grid_mlp", "encoding_grid_mlp"): the
value is copied to the new key, then the old key is deleted. -/

def oldPref : String := "g2m_gnn.grid_mlp"

def newPref : String := "encoding_grid_mlp"

def guardKey : String := "g2m_gnn.grid_mlp.0.weight"

/-- The new key for an old key, via Python str.replace. -/
def renameKey (k : String) : String := pyReplace k oldPref newPref

/-- One iteration of the renaming loop:
new_key assignment followed by del of the old key.  The lookup cannot miss
in the source (old_key is always a live key of the dict when processed);
the none branch is unreachable there. -/
def migrateStep {τ : Type} (d : List (String × τ)) (old_key : String) :
    List (String × τ) :=
  match dictLookup d old_key with
  | some v => dictDelete (dictInsert d (renameKey old_key) v) old_key
  | none => d

/-- The state-dict migration performed by ARModel.on_load_checkpoint. -/
def on_load_checkpoint {τ : Type} (d : List (String × τ)) : List (String × τ) :=
  if containsKey d guardKey then
    ((dictKeys d).filter (fun key => pyStartsWith key oldPref)).foldl migrateStep d
  else d

/-! Structural facts about renameKey on keys that start with the old
prefix: written out, such a key is oldPref ++ t and its rename is
newPref ++ (replacement of the tail), so a renamed key can never start
with the old prefix, equal the guard key, or equal an un-renamed key. -/

/-! Behaviour of the renaming fold. -/

/-! ## Autoregressive rollout (ar_model.py, unroll_prediction, lines 214-261)

A state tensor (B, num_grid_nodes, d_f) is a function batch → node →
feature → α.  border_mask (shape (num_grid_nodes, 1)) is a function
node → α, broadcast over batch and feature as in the source;
interior_mask is registered at construction as 1.0 - border_mask
(line 76-78).  The per-step predictor single_prediction is abstract in the
source (raise NotImplementedError) and is a parameter here; it returns the
candidate state and an optional std tensor.  torch.stack along dim 1 turns
the Python list of per-step tensors into one tensor whose step index is
the list index, so it is modelled by the list itself; torch.stack raises
on an empty list (RuntimeError) and on a list containing None (TypeError),
modelled as Except errors.  In addition to the returned value the
embedding records the trace of predictor invocations (one entry appended
per single_prediction call), which the source performs once per loop
iteration. -/

/-- A (B, num_grid_nodes, d_f) tensor. -/
def GridState (α : Type) : Type := Nat → Nat → Nat → α

/-- A (B, num_grid_nodes, d_forcing) forcing tensor for one step. -/
def GridForce (α : Type) : Type := Nat → Nat → Nat → α

/-- The injected single-step predictor:
(prev_state, prev_prev_state, forcing) → (new state, optional std). -/
def Predictor (α : Type) : Type :=
  GridState α → GridState α → GridForce α → GridState α × Option (GridState α)

/-- The ARModel fields the rollout reads. -/
structure Model (α : Type) where
  border_mask : Nat → α
  output_std : Bool
  per_var_std : Nat → α

/-- interior_mask, registered at construction as 1.0 - border_mask. -/
def interiorMask {α : Type} [CommRing α] (M : Model α) : Nat → α :=
  fun n => 1 - M.border_mask n

/-- The masked blend of line 238-241:
border_mask * border_state + interior_mask * pred_state. -/
def maskBlend {α : Type} [CommRing α] (M : Model α)
    (border_state pred_state : GridState α) : GridState α :=
  fun b n f =>
    M.border_mask n * border_state b n f + interiorMask M n * pred_state b n f

/-- Failures raised by torch.stack: RuntimeError on an empty tensor list,
TypeError on a list containing None. -/
inductive TorchError : Type
  | emptyStack : TorchError
  | noneElement : TorchError
deriving DecidableEq

/-- torch.stack(l, dim=1): the stacked tensor is the list of per-step
tensors itself in this model; an empty list raises. -/
def torchStack {σ : Type} (l : List σ) : Except TorchError (List σ) :=
  if l.isEmpty then .error .emptyStack else .ok l

/-- Collapse a list of optional tensors, failing on any none. -/
def allSome {σ : Type} : List (Option σ) → Option (List σ)
  | [] => some []
  | none :: _ => none
  | some x :: rest => (allSome rest).map (fun xs => x :: xs)

/-- torch.stack(l, dim=1) on a Python list whose elements may be None. -/
def torchStackOptional {σ : Type} (l : List (Option σ)) :
    Except TorchError (List σ) :=
  if l.isEmpty then .error .emptyStack
  else
    match allSome l with
    | some xs => .ok xs
    | none => .error .noneElement

/-- The rollout's uncertainty output: either the static per-variable
vector per_var_std (shape (d_f,)) or the stacked per-step std tensors. -/
inductive StdOut (α : Type) : Type
  | static (v : Nat → α) : StdOut α
  | perStep (stds : List (GridState α)) : StdOut α

/-- The mutable state of the rollout loop, plus the predictor call trace. -/
structure LoopState (α : Type) where
  prediction_list : List (GridState α)
  pred_std_list : List (Option (GridState α))
  prev_prev_state : GridState α
  prev_state : GridState α
  calls : List (GridState α × GridState α × GridForce α)

/-- One iteration of the rollout loop (lines 227-249), for step index i. -/
def unrollStep {α : Type} [CommRing α] (M : Model α) (p : Predictor α)
    (forcing_features : List (GridForce α)) (true_states : Nat → GridState α)
    (st : LoopState α) (i : Nat) : LoopState α :=
  let forcing := forcing_features.getD i (fun _ _ _ => 0)
  let border_state := true_states i
  let res := p st.prev_state st.prev_prev_state forcing
  let new_state := maskBlend M border_state res.1
  { prediction_list := st.prediction_list ++ [new_state]
    pred_std_list :=
      if M.output_std then st.pred_std_list ++ [res.2] else st.pred_std_list
    prev_prev_state := st.prev_state
    prev_state := new_state
    calls := st.calls ++ [(st.prev_state, st.prev_prev_state, forcing)] }

/-- Loop state before the first iteration (lines 221-224). -/
def initLoop {α : Type} (init_states : GridState α × GridState α) : LoopState α :=
  { prediction_list := []
    pred_std_list := []
    prev_prev_state := init_states.1
    prev_state := init_states.2
    calls := [] }

/-- Loop state after the first k iterations of for i in range(pred_steps). -/
def loopTo {α : Type} [CommRing α] (M : Model α) (p : Predictor α)
    (init_states : GridState α × GridState α) (forcing_features : List (GridForce α))
    (true_states : Nat → GridState α) (k : Nat) : LoopState α :=
  (List.range k).foldl (unrollStep M p forcing_features true_states)
    (initLoop init_states)

/-- ARModel.unroll_prediction.  pred_steps is forcing_features.shape[1],
the length of the forcing list.  Returns the (fallible) value of the
Python function together with the predictor call trace. -/
def unroll_prediction {α : Type} [CommRing α] (M : Model α) (p : Predictor α)
    (init_states : GridState α × GridState α) (forcing_features : List (GridForce α))
    (true_states : Nat → GridState α) :
    Except TorchError (List (GridState α) × StdOut α)
      × List (GridState α × GridState α × GridForce α) :=
  let final := loopTo M p init_states forcing_features true_states
    forcing_features.length
  let result : Except TorchError (List (GridState α) × StdOut α) :=
    match torchStack final.prediction_list with
    | .error e => .error e
    | .ok prediction =>
      if M.output_std then
        match torchStackOptional final.pred_std_list with
        | .error e => .error e
        | .ok stds => .ok (prediction, .perStep stds)
      else .ok (prediction, .static M.per_var_std)
  (result, final.calls)

/-- forcing_features[:, i] as read by the loop body. -/
def forcingAt {α : Type} [CommRing α] (forcing_features : List (GridForce α))
    (i : Nat) : GridForce α :=
  forcing_features.getD i (fun _ _ _ => 0)

/-- The rolling state prev_state entering iteration i. -/
def prevAt {α : Type} [CommRing α] (M : Model α) (p : Predictor α)
    (init_states : GridState α × GridState α) (forcing_features : List (GridForce α))
    (true_states : Nat → GridState α) (i : Nat) : GridState α :=
  (loopTo M p init_states forcing_features true_states i).prev_state

/-- The rolling state prev_prev_state entering iteration i. -/
def prevPrevAt {α : Type} [CommRing α] (M : Model α) (p : Predictor α)
    (init_states : GridState α × GridState α) (forcing_features : List (GridForce α))
    (true_states : Nat → GridState α) (i : Nat) : GridState α :=
  (loopTo M p init_states forcing_features true_states i).prev_prev_state

/-- The candidate full-grid state produced by the predictor at step i. -/
def candidateAt {α : Type} [CommRing α] (M : Model α) (p : Predictor α)
    (init_states : GridState α × GridState α) (forcing_features : List (GridForce α))
    (true_states : Nat → GridState α) (i : Nat) : GridState α :=
  (p (prevAt M p init_states forcing_features true_states i)
     (prevPrevAt M p init_states forcing_features true_states i)
     (forcingAt forcing_features i)).1

/-- The state emitted at step i: element i of the prediction list. -/
def emittedAt {α : Type} [CommRing α] (M : Model α) (p : Predictor α)
    (init_states : GridState α × GridState α) (forcing_features : List (GridForce α))
    (true_states : Nat → GridState α) (i : Nat) : GridState α :=
  (loopTo M p init_states forcing_features true_states (i + 1)).prediction_list.getD
    i (fun _ _ _ => 0)

/-- Static per-variable std stored at construction when output_std is off
(lines 52-59): step_diff_std / torch.sqrt(param_weights). -/
noncomputable def per_var_std_init (step_diff_std param_weights : Nat → ℝ) :
    Nat → ℝ :=
  fun v => step_diff_std v / Real.sqrt (param_weights v)

/-! ## Variable index computation
(ar_model.py, pre_compute_variable_indices, lines 128-154)

The source iterates over var_names; the branch condition on line 138 is
(if self.config_loader.dataset.var_is_3d:) - the truthiness of the whole
var_is_3d container (nonempty means true), not a per-variable lookup.
The container is modelled as an association list String × Bool, and the
condition as its nonemptiness, exactly as Python evaluates it.  The pairs
are then sorted as Python sorted() sorts (name, level) tuples
(lexicographic, strings by code point) and consecutive positions are
grouped by name into an insertion-ordered dict. -/

/-- The all_vars list built by the first loop (lines 135-142). -/
def allVarsList (var_names : List String) (var_is_3d : List (String × Bool))
    (vertical_levels : List Int) : List (String × Int) :=
  var_names.foldl
    (fun acc var_name =>
      if !var_is_3d.isEmpty then
        acc ++ vertical_levels.map (fun level => (var_name, level))
      else acc ++ [(var_name, 0)])
    []

/-- Stable insertion into a list sorted by pairLe. -/
def insertPair (x : String × Int) : List (String × Int) → List (String × Int)
  | [] => [x]
  | y :: ys => if pairLe x y then x :: y :: ys else y :: insertPair x ys

/-- Python sorted(all_vars): stable ascending sort of (name, level) pairs. -/
def sortedPairs (l : List (String × Int)) : List (String × Int) :=
  l.foldr insertPair []

/-- Append position i to the list of var_name, creating the entry at the
end when absent - exactly the dict update of lines 149-151. -/
def addIndex : List (String × List Nat) → String → Nat → List (String × List Nat)
  | [], name, i => [(name, [i])]
  | (n, l) :: rest, name, i =>
    if n = name then (n, l ++ [i]) :: rest else (n, l) :: addIndex rest name i

/-- The grouping loop of lines 147-152, carrying the running index. -/
def buildLoop : List (String × Int) → Nat → List (String × List Nat) →
    List (String × List Nat)
  | [], _, m => m
  | (name, _) :: rest, i, m => buildLoop rest (i + 1) (addIndex m name i)

/-- ARModel.pre_compute_variable_indices. -/
def pre_compute_variable_indices (var_names : List String)
    (var_is_3d : List (String × Bool)) (vertical_levels : List Int) :
    List (String × List Nat) :=
  buildLoop (sortedPairs (allVarsList var_names var_is_3d vertical_levels)) 0 []

/-- All positions stored in the grouped index map, in entry order. -/
def joinVals (m : List (String × List Nat)) : List Nat :=
  (m.map Prod.snd).flatten

/-! ## Metric accumulators and the epoch-end handlers
(ar_model.py, lines 81-89, 352-361, 643-693)

Only the mutation of the accumulator attributes matters here:
aggregate_and_plot_metrics reads the lists (concatenates, gathers,
averages) but never mutates them, and all the logging/plotting sinks are
external.  on_validation_epoch_end clears every list in val_metrics
(lines 359-361); on_test_epoch_end clears spatial_loss_maps (line 693)
and nothing else - in particular it does not touch the test_metrics
lists. -/

structure MetricsState (τ : Type) where
  val_metrics : List (String × List τ)
  test_metrics : List (String × List τ)
  spatial_loss_maps : List τ

/-- State after ARModel.on_validation_epoch_end (lines 352-361). -/
def on_validation_epoch_end {τ : Type} (s : MetricsState τ) : MetricsState τ :=
  { s with val_metrics := s.val_metrics.map (fun p => (p.1, [])) }

/-- State after ARModel.on_test_epoch_end (lines 643-693). -/
def on_test_epoch_end {τ : Type} (s : MetricsState τ) : MetricsState τ :=
  { s with spatial_loss_maps := [] }

/-! ## Metric aggregation
(ar_model.py, aggregate_and_plot_metrics, lines 607-641)

For one metric of the dict: metric_tensor is the cross-worker gather of
the per-worker concatenation of the accumulated per-batch tensors
(all_gather_cat of torch.cat(metric_val_list, dim=0)); a per-batch tensor
of shape (B, pred_steps, d_f) is a list of B per-sample (pred_steps, d_f)
tensors, each a function step → variable → ℝ.  On rank zero the tensor is
averaged over the gathered batch axis, metrics whose name contains "mse"
take an elementwise sqrt after that mean and are renamed with
str.replace("mse", "rmse"), and the result is multiplied by the
per-variable data_std.  The logging dict construction is external and
omitted. -/

/-- torch.cat(metric_val_list, dim=0): concatenation along the batch axis. -/
def torchCat {σ : Type} (metric_val_list : List (List σ)) : List σ :=
  metric_val_list.flatten

/-- ARModel.all_gather_cat: gather across ranks, concatenate along dim 0. -/
def all_gather_cat {σ : Type} (per_worker : List (List σ)) : List σ :=
  per_worker.flatten

/-- torch.mean(metric_tensor, dim=0): elementwise arithmetic mean over the
gathered batch axis. -/
noncomputable def batchMean (metric_tensor : List (Nat → Nat → ℝ)) :
    Nat → Nat → ℝ :=
  fun s v => ((metric_tensor.map (fun t => t s v)).sum) / metric_tensor.length

/-- The aggregation pipeline of lines 616-631 for one metric:
worker_val_lists holds each rank's accumulated metric_val_list.  Returns
the (possibly renamed) metric name and the rescaled tensor. -/
noncomputable def aggregate_metric (metric_name : String)
    (worker_val_lists : List (List (List (Nat → Nat → ℝ))))
    (data_std : Nat → ℝ) : String × (Nat → Nat → ℝ) :=
  let metric_tensor := all_gather_cat (worker_val_lists.map torchCat)
  let metric_tensor_averaged := batchMean metric_tensor
  let with_sqrt :=
    if strContains metric_name "mse" then
      fun s v => Real.sqrt (metric_tensor_averaged s v)
    else metric_tensor_averaged
  let new_name :=
    if strContains metric_name "mse" then pyReplace metric_name "mse" "rmse"
    else metric_name
  (new_name, fun s v => with_sqrt s v * data_std v)

/-! ## Concrete inputs used by witnesses and counterexamples -/

/-- A border mask putting node 0 on the border, all other nodes interior. -/
def borderQ : Nat → ℚ := fun n => if n = 0 then 1 else 0

/-- A model over ℚ with output_std disabled. -/
def Mq : Model ℚ :=
  { border_mask := borderQ, output_std := false, per_var_std := fun _ => 0 }

/-- A model over ℚ with output_std enabled. -/
def Mq2 : Model ℚ :=
  { border_mask := borderQ, output_std := true, per_var_std := fun _ => 0 }

/-- Concrete initial states over ℚ. -/
def sQ : GridState ℚ := fun _ _ _ => 2

/-- Second concrete initial state over ℚ. -/
def sQ2 : GridState ℚ := fun _ _ _ => 3

/-- A concrete predictor over ℚ that adds one and reports no std. -/
def pq : Predictor ℚ := fun prev _ _ => (fun b n f => prev b n f + 1, none)

/-- A one-step forcing sequence over ℚ. -/
def foQ : List (GridForce ℚ) := [fun _ _ _ => 5]

/-- Concrete ground-truth states over ℚ. -/
def tsQ : Nat → GridState ℚ := fun _ => fun _ _ _ => 7

/-- Ground truth agreeing with tsQ on step 0 and differing afterwards. -/
def tsQ2 : Nat → GridState ℚ := fun i =>
  if i = 0 then (fun _ _ _ => 7) else (fun _ _ _ => 100)

/-! ## The claims -/

/-- Per-variable step-difference std used by the C9 witness model. -/

noncomputable def sdsR : Nat → ℝ := fun _ => 3

/-- Per-variable loss weights used by the C9 witness model. -/
noncomputable def pwR : Nat → ℝ := fun _ => 4

/-- ℝ-valued witness model with output_std off and the constructed
per_var_std buffer. -/
noncomputable def Mr1 : Model ℝ :=
  { border_mask := fun _ => 0, output_std := false,
    per_var_std := per_var_std_init sdsR pwR }

/-- ℝ-valued witness model with output_std on. -/
noncomputable def Mr2 : Model ℝ :=
  { border_mask := fun _ => 0, output_std := true, per_var_std := fun _ => 0 }

/-- ℝ-valued witness predictor returning its previous state, with that
same state as std. -/
noncomputable def prR : Predictor ℝ := fun prev _ _ => (prev, some prev)

/-- The std head of prR as a plain function. -/
noncomputable def gR : GridState ℝ → GridState ℝ → GridForce ℝ → GridState ℝ :=
  fun a _ _ => a

/-- ℝ-valued witness state. -/
noncomputable def sR : GridState ℝ := fun _ _ _ => 1

/-- One-step ℝ-valued witness forcing. -/
noncomputable def foR : List (GridForce ℝ) := [fun _ _ _ => 0]

/-- ℝ-valued witness ground truth. -/
noncomputable def tsR : Nat → GridState ℝ := fun _ _ _ _ => 0

/-- Gathered accumulator for the C2 witness: one worker, two per-batch
MSE tensors with single samples 4.0 and 16.0 for one variable, one step. -/
noncomputable def W2 : List (List (List (Nat → Nat → ℝ))) :=
  [[[fun _ _ => 4], [fun _ _ => 16]]]

/-- Stored per-variable std 2.0 for the C2 witness. -/
noncomputable def std2 : Nat → ℝ := fun _ => 2

/-- Metric accumulator state used by the C5 counterexample and witness:
one stored test MSE tensor and one stored spatial loss map. -/
def s5c : MetricsState Nat :=
  { val_metrics := [("mse", [7])]
    test_metrics := [("mse", [3]), ("mae", [])]
    spatial_loss_maps := [9] }

/-- State dict with a key collision used by the C7 counterexample: the
old-format key renames onto an already-renamed key that is also present. -/

def dCol : List (String × Nat) :=
  [("g2m_gnn.grid_mlp.0.weight", 1), ("encoding_grid_mlp.0.weight", 2)]

/-- Collision-free state dict used by the C7 witness. -/
def dW : List (String × Nat) :=
  [("g2m_gnn.grid_mlp.0.weight", 1), ("other", 2)]

/-- Second state dict (no old-format keys) used by the C7 witness. -/
def d0W : List (String × Nat) := [("x", 5)]

/-! ## Lemmas and claim theorems -/

theorem isPrefixOf_append_self (l t : List Char) : l.isPrefixOf (l ++ t) = true := by
  induction l with
  | nil => simp [List.isPrefixOf]
  | cons a as ih => simp [List.isPrefixOf, ih]

theorem isPrefixOf_eq_true_iff (l s : List Char) :
    l.isPrefixOf s = true ↔ ∃ t, s = l ++ t := by
  induction l generalizing s with
  | nil => simp [List.isPrefixOf]
  | cons a as ih =>
    cases s with
    | nil => simp [List.isPrefixOf]
    | cons b bs =>
      simp only [List.isPrefixOf, Bool.and_eq_true, beq_iff_eq, ih]
      constructor
      · rintro ⟨rfl, t, rfl⟩
        exact ⟨t, rfl⟩
      · rintro ⟨t, h⟩
        cases h
        exact ⟨rfl, t, rfl⟩

theorem replaceAux_cons_of_head (pat rep : List Char) (t : List Char)
    (hne : pat ≠ []) (fuel : Nat) :
    replaceAux pat rep (fuel + 1) (pat ++ t) = rep ++ replaceAux pat rep fuel t := by
  have hpre : (pat.isPrefixOf (pat ++ t) && !pat.isEmpty) = true := by
    rw [isPrefixOf_append_self]
    simp [List.isEmpty_iff, hne]
  conv_lhs => rw [replaceAux.eq_def]
  simp only []
  rw [if_pos hpre, List.drop_left]

theorem dictLookup_append {τ : Type} (d₁ d₂ : List (String × τ)) (k : String) :
    dictLookup (d₁ ++ d₂) k =
      (match dictLookup d₁ k with
       | some v => some v
       | none => dictLookup d₂ k) := by
  induction d₁ with
  | nil => simp [dictLookup]
  | cons p rest ih =>
    by_cases h : p.1 = k
    · simp [dictLookup, h]
    · simp [dictLookup, h, ih]

theorem dictLookup_eq_none_iff {τ : Type} (d : List (String × τ)) (k : String) :
    dictLookup d k = none ↔ containsKey d k = false := by
  induction d with
  | nil => simp [dictLookup, containsKey]
  | cons p rest ih =>
    by_cases h : p.1 = k
    · simp [dictLookup, containsKey, h]
    · simp [dictLookup, containsKey, h, ih]

theorem containsKey_iff_mem_keys {τ : Type} (d : List (String × τ)) (k : String) :
    containsKey d k = true ↔ k ∈ dictKeys d := by
  induction d with
  | nil => simp [containsKey, dictKeys]
  | cons p rest ih =>
    by_cases h : p.1 = k
    · simp [containsKey, dictKeys, h]
    · simp [containsKey, dictKeys, h, ih]
      intro hk
      exact absurd hk.symm h

theorem dictLookup_map_replace_self {τ : Type} (d : List (String × τ)) (k : String)
    (v : τ) (hc : containsKey d k = true) :
    dictLookup (d.map (fun p => if p.1 = k then (k, v) else p)) k = some v := by
  induction d with
  | nil => simp [containsKey] at hc
  | cons p rest ih =>
    by_cases hp : p.1 = k
    · simp only [List.map_cons, if_pos hp]
      rw [dictLookup, if_pos rfl]
    · simp only [List.map_cons, if_neg hp]
      rw [dictLookup, if_neg hp]
      exact ih (by simpa [containsKey, hp] using hc)

theorem dictLookup_map_replace_ne {τ : Type} (d : List (String × τ)) (k k' : String)
    (v : τ) (h : k' ≠ k) :
    dictLookup (d.map (fun p => if p.1 = k then (k, v) else p)) k' = dictLookup d k' := by
  induction d with
  | nil => rfl
  | cons p rest ih =>
    by_cases hp : p.1 = k
    · have h1 : ¬ k = k' := fun he => h he.symm
      have h2 : ¬ p.1 = k' := by rw [hp]; exact h1
      simp only [List.map_cons, if_pos hp]
      rw [dictLookup, if_neg h1, dictLookup, if_neg h2]
      exact ih
    · simp only [List.map_cons, if_neg hp]
      by_cases hp' : p.1 = k'
      · rw [dictLookup, if_pos hp', dictLookup, if_pos hp']
      · rw [dictLookup, if_neg hp', dictLookup, if_neg hp']
        exact ih

theorem dictLookup_insert_self {τ : Type} (d : List (String × τ)) (k : String) (v : τ) :
    dictLookup (dictInsert d k v) k = some v := by
  unfold dictInsert
  by_cases hc : containsKey d k
  · rw [if_pos hc]
    exact dictLookup_map_replace_self d k v hc
  · rw [if_neg hc, dictLookup_append]
    rw [(dictLookup_eq_none_iff d k).mpr (by simpa using hc)]
    simp [dictLookup]

theorem dictLookup_insert_ne {τ : Type} (d : List (String × τ)) (k k' : String) (v : τ)
    (h : k' ≠ k) : dictLookup (dictInsert d k v) k' = dictLookup d k' := by
  unfold dictInsert
  by_cases hc : containsKey d k
  · rw [if_pos hc]
    exact dictLookup_map_replace_ne d k k' v h
  · rw [if_neg hc, dictLookup_append]
    cases hval : dictLookup d k' with
    | some v' => simp
    | none =>
      rw [dictLookup, if_neg (fun he : k = k' => h he.symm)]
      rfl

theorem dictLookup_delete_self {τ : Type} (d : List (String × τ)) (k : String) :
    dictLookup (dictDelete d k) k = none := by
  induction d with
  | nil => rfl
  | cons p rest ih =>
    by_cases h : p.1 = k
    · have hb : (!(p.1 == k)) = false := by simp [h]
      simpa [dictDelete, List.filter_cons, hb] using ih
    · have hb : (!(p.1 == k)) = true := by simp [h]
      simp only [dictDelete, List.filter_cons, hb, if_pos]
      rw [dictLookup, if_neg h]
      exact ih

theorem dictLookup_delete_ne {τ : Type} (d : List (String × τ)) (k k' : String)
    (h : k' ≠ k) : dictLookup (dictDelete d k) k' = dictLookup d k' := by
  induction d with
  | nil => rfl
  | cons p rest ih =>
    by_cases hp : p.1 = k
    · have h2 : ¬ p.1 = k' := fun he => h (hp ▸ he.symm ▸ rfl)
      have hb : (!(p.1 == k)) = false := by simp [hp]
      simp only [dictDelete, List.filter_cons, hb]
      rw [dictLookup, if_neg h2]
      exact ih
    · have hb : (!(p.1 == k)) = true := by simp [hp]
      simp only [dictDelete, List.filter_cons, hb, if_pos]
      by_cases hp' : p.1 = k'
      · rw [dictLookup, if_pos hp', dictLookup, if_pos hp']
      · rw [dictLookup, if_neg hp', dictLookup, if_neg hp']
        exact ih

theorem renameKey_data_of_startsWith (k : String) (h : pyStartsWith k oldPref = true) :
    ∃ t, (renameKey k).data = newPref.data ++ t := by
  obtain ⟨u, hu⟩ := (isPrefixOf_eq_true_iff oldPref.data k.data).mp h
  have hlen : k.data.length = (oldPref.data.length - 1 + u.length) + 1 := by
    rw [hu, List.length_append]
    have : oldPref.data.length = 16 := by decide
    omega
  refine ⟨replaceAux oldPref.data newPref.data (oldPref.data.length - 1 + u.length) u, ?_⟩
  show replaceAux oldPref.data newPref.data k.data.length k.data = _
  rw [hlen, hu, replaceAux_cons_of_head _ _ _ (by decide)]

theorem startsWith_old_data_ne_new_append (a : String)
    (ha : pyStartsWith a oldPref = true) (t : List Char) :
    a.data ≠ newPref.data ++ t := by
  obtain ⟨u, hu⟩ := (isPrefixOf_eq_true_iff oldPref.data a.data).mp ha
  intro h
  rw [hu] at h
  have h16 := congrArg (List.take oldPref.data.length) h
  rw [List.take_left, List.take_append_eq_append_take] at h16
  have : oldPref.data.length - newPref.data.length = 0 := by decide
  rw [this, List.take_zero, List.append_nil] at h16
  exact absurd h16 (by decide)

theorem startsWith_old_ne_renamed (a k : String)
    (ha : pyStartsWith a oldPref = true) (hk : pyStartsWith k oldPref = true) :
    a ≠ renameKey k := by
  obtain ⟨t, ht⟩ := renameKey_data_of_startsWith k hk
  intro he
  exact startsWith_old_data_ne_new_append a ha t (by rw [he, ht])

theorem guard_startsWith_old : pyStartsWith guardKey oldPref = true := by decide

theorem renamed_ne_guard (k : String) (hk : pyStartsWith k oldPref = true) :
    renameKey k ≠ guardKey := by
  intro he
  exact startsWith_old_ne_renamed guardKey k guard_startsWith_old hk he.symm

theorem foldl_migrateStep_lookup_pres {τ : Type} (ks : List String)
    (d : List (String × τ)) (key : String)
    (h : ∀ k ∈ ks, k ≠ key ∧ renameKey k ≠ key) :
    dictLookup (ks.foldl migrateStep d) key = dictLookup d key := by
  induction ks generalizing d with
  | nil => rfl
  | cons k ks ih =>
    rw [List.foldl_cons]
    rw [ih _ (fun k' hk' => h k' (List.mem_cons_of_mem _ hk'))]
    obtain ⟨h1, h2⟩ := h k (List.mem_cons_self _ _)
    unfold migrateStep
    cases hl : dictLookup d k with
    | none => rfl
    | some v =>
      rw [dictLookup_delete_ne _ _ _ (fun he => h1 he.symm),
        dictLookup_insert_ne _ _ _ _ (fun he => h2 he.symm)]

theorem foldl_migrateStep_lookup_none {τ : Type} (ks : List String)
    (d : List (String × τ)) (key : String)
    (h : ∀ k ∈ ks, renameKey k ≠ key)
    (hd : dictLookup d key = none) :
    dictLookup (ks.foldl migrateStep d) key = none := by
  induction ks generalizing d with
  | nil => exact hd
  | cons k ks ih =>
    rw [List.foldl_cons]
    apply ih _ (fun k' hk' => h k' (List.mem_cons_of_mem _ hk'))
    unfold migrateStep
    cases hl : dictLookup d k with
    | none => exact hd
    | some v =>
      by_cases hk : key = k
      · rw [hk, dictLookup_delete_self]
      · rw [dictLookup_delete_ne _ _ _ hk,
          dictLookup_insert_ne _ _ _ _
            (fun he => h k (List.mem_cons_self _ _) he.symm)]
        exact hd

theorem foldl_migrateStep_guard_gone {τ : Type} (ks : List String)
    (d : List (String × τ))
    (hmem : guardKey ∈ ks) (h : ∀ k ∈ ks, renameKey k ≠ guardKey) :
    dictLookup (ks.foldl migrateStep d) guardKey = none := by
  induction ks generalizing d with
  | nil => exact absurd hmem (List.not_mem_nil _)
  | cons k ks ih =>
    rw [List.foldl_cons]
    by_cases hk : k = guardKey
    · apply foldl_migrateStep_lookup_none _ _ _
        (fun k' hk' => h k' (List.mem_cons_of_mem _ hk'))
      subst hk
      unfold migrateStep
      cases hl : dictLookup d guardKey with
      | none => exact hl
      | some v => rw [dictLookup_delete_self]
    · rcases List.mem_cons.mp hmem with he | hmem'
      · exact absurd he.symm hk
      · exact ih _ hmem' (fun k' hk' => h k' (List.mem_cons_of_mem _ hk'))

theorem foldl_migrateStep_rename {τ : Type} (ks : List String)
    (d : List (String × τ)) (k₂ : String)
    (hnd : ks.Nodup) (hmem : k₂ ∈ ks)
    (hall : ∀ k ∈ ks, pyStartsWith k oldPref = true)
    (hinj : ∀ k ∈ ks, k ≠ k₂ → renameKey k ≠ renameKey k₂)
    (hc : containsKey d k₂ = true) :
    dictLookup (ks.foldl migrateStep d) (renameKey k₂) = dictLookup d k₂ := by
  have h₂s : pyStartsWith k₂ oldPref = true := hall k₂ hmem
  induction ks generalizing d with
  | nil => exact absurd hmem (List.not_mem_nil _)
  | cons k ks ih =>
    rw [List.foldl_cons]
    by_cases hk : k = k₂
    · subst hk
      have hv : ∃ v, dictLookup d k = some v := by
        cases hl : dictLookup d k with
        | none =>
          rw [(dictLookup_eq_none_iff d k).mp hl] at hc
          exact absurd hc (by simp)
        | some v => exact ⟨v, rfl⟩
      obtain ⟨v, hv⟩ := hv
      rw [show migrateStep d k = dictDelete (dictInsert d (renameKey k) v) k from by
        unfold migrateStep; rw [hv]]
      have hne : renameKey k ≠ k := fun he =>
        startsWith_old_ne_renamed k k h₂s h₂s he.symm
      have hk_not_mem : k ∉ ks := (List.nodup_cons.mp hnd).1
      rw [foldl_migrateStep_lookup_pres ks _ (renameKey k)
        (fun k' hk' =>
          ⟨fun he => startsWith_old_ne_renamed k' k
              (hall k' (List.mem_cons_of_mem _ hk')) h₂s he,
           hinj k' (List.mem_cons_of_mem _ hk')
              (fun he => hk_not_mem (he ▸ hk'))⟩)]
      rw [dictLookup_delete_ne _ _ _ hne, dictLookup_insert_self, hv]
    · have hk₂ : k₂ ∈ ks := by
        rcases List.mem_cons.mp hmem with he | hmem'
        · exact absurd he.symm hk
        · exact hmem'
      have hks : pyStartsWith k oldPref = true := hall k (List.mem_cons_self _ _)
      have hpres : dictLookup (migrateStep d k) k₂ = dictLookup d k₂ := by
        unfold migrateStep
        cases hl : dictLookup d k with
        | none => rfl
        | some v =>
          rw [dictLookup_delete_ne _ _ _ (fun he => hk he.symm),
            dictLookup_insert_ne _ _ _ _
              (fun he => startsWith_old_ne_renamed k₂ k h₂s hks he)]
      have hc' : containsKey (migrateStep d k) k₂ = true := by
        cases hb : containsKey (migrateStep d k) k₂ with
        | false =>
          rw [← dictLookup_eq_none_iff] at hb
          rw [hpres] at hb
          rw [(dictLookup_eq_none_iff d k₂).mp hb] at hc
          exact absurd hc (by simp)
        | true => rfl
      rw [ih _ (List.nodup_cons.mp hnd).2 hk₂
        (fun k' hk' => hall k' (List.mem_cons_of_mem _ hk'))
        (fun k' hk' => hinj k' (List.mem_cons_of_mem _ hk')) hc']
      exact hpres

theorem on_load_checkpoint_of_guard {τ : Type} (d : List (String × τ))
    (hg : containsKey d guardKey = true) :
    on_load_checkpoint d =
      ((dictKeys d).filter (fun key => pyStartsWith key oldPref)).foldl migrateStep d := by
  rw [on_load_checkpoint.eq_def, if_pos hg]

theorem on_load_checkpoint_guard_gone {τ : Type} (d : List (String × τ)) :
    containsKey (on_load_checkpoint d) guardKey = true →
      containsKey d guardKey = false := by
  intro hc
  by_cases hg : containsKey d guardKey = true
  · exfalso
    have hgone : dictLookup (on_load_checkpoint d) guardKey = none := by
      rw [on_load_checkpoint_of_guard d hg]
      apply foldl_migrateStep_guard_gone
      · rw [List.mem_filter]
        exact ⟨(containsKey_iff_mem_keys d guardKey).mp hg, guard_startsWith_old⟩
      · intro k hk
        exact renamed_ne_guard k (List.mem_filter.mp hk).2
    rw [(dictLookup_eq_none_iff _ _).mp hgone] at hc
    exact absurd hc (by simp)
  · simpa using hg

theorem on_load_checkpoint_idem {τ : Type} (d : List (String × τ)) :
    on_load_checkpoint (on_load_checkpoint d) = on_load_checkpoint d := by
  by_cases hg : containsKey d guardKey = true
  · have hc2 : ¬ containsKey (on_load_checkpoint d) guardKey = true := by
      intro hc
      have hfalse := on_load_checkpoint_guard_gone d hc
      rw [hg] at hfalse
      exact absurd hfalse (by simp)
    rw [on_load_checkpoint.eq_def, if_neg hc2]
  · have hd : on_load_checkpoint d = d := by
      rw [on_load_checkpoint.eq_def, if_neg hg]
    rw [hd]
    exact hd

theorem unroll_prediction_fst {α : Type} [CommRing α] (M : Model α)
    (p : Predictor α) (is : GridState α × GridState α) (fo : List (GridForce α))
    (ts : Nat → GridState α) :
    (unroll_prediction M p is fo ts).1 =
      match torchStack (loopTo M p is fo ts fo.length).prediction_list with
      | .error e => .error e
      | .ok prediction =>
        if M.output_std then
          match torchStackOptional (loopTo M p is fo ts fo.length).pred_std_list with
          | .error e => .error e
          | .ok stds => .ok (prediction, .perStep stds)
        else .ok (prediction, .static M.per_var_std) := rfl

theorem loopTo_succ {α : Type} [CommRing α] (M : Model α) (p : Predictor α)
    (init_states : GridState α × GridState α) (fo : List (GridForce α))
    (ts : Nat → GridState α) (k : Nat) :
    loopTo M p init_states fo ts (k + 1) =
      unrollStep M p fo ts (loopTo M p init_states fo ts k) k := by
  unfold loopTo
  rw [List.range_succ, List.foldl_append, List.foldl_cons, List.foldl_nil]

theorem loopTo_prediction_length {α : Type} [CommRing α] (M : Model α)
    (p : Predictor α) (init_states : GridState α × GridState α)
    (fo : List (GridForce α)) (ts : Nat → GridState α) (k : Nat) :
    (loopTo M p init_states fo ts k).prediction_list.length = k := by
  induction k with
  | zero => rfl
  | succ k ih =>
    rw [loopTo_succ]
    simp [unrollStep, ih]

theorem loopTo_calls_length {α : Type} [CommRing α] (M : Model α)
    (p : Predictor α) (init_states : GridState α × GridState α)
    (fo : List (GridForce α)) (ts : Nat → GridState α) (k : Nat) :
    (loopTo M p init_states fo ts k).calls.length = k := by
  induction k with
  | zero => rfl
  | succ k ih =>
    rw [loopTo_succ]
    simp [unrollStep, ih]

theorem emittedAt_eq_blend {α : Type} [CommRing α] (M : Model α) (p : Predictor α)
    (init_states : GridState α × GridState α) (fo : List (GridForce α))
    (ts : Nat → GridState α) (i : Nat) :
    emittedAt M p init_states fo ts i =
      maskBlend M (ts i) (candidateAt M p init_states fo ts i) := by
  unfold emittedAt
  rw [loopTo_succ]
  show ((loopTo M p init_states fo ts i).prediction_list ++
      [maskBlend M (ts i)
        (p (loopTo M p init_states fo ts i).prev_state
           (loopTo M p init_states fo ts i).prev_prev_state
           (fo.getD i (fun _ _ _ => 0))).1]).getD i (fun _ _ _ => 0) = _
  rw [List.getD_eq_getElem?_getD]
  rw [List.getElem?_append_right (by rw [loopTo_prediction_length])]
  rw [loopTo_prediction_length]
  simp [candidateAt, prevAt, prevPrevAt, forcingAt]

theorem loopTo_prediction_list_eq_map {α : Type} [CommRing α] (M : Model α)
    (p : Predictor α) (init_states : GridState α × GridState α)
    (fo : List (GridForce α)) (ts : Nat → GridState α) (k : Nat) :
    (loopTo M p init_states fo ts k).prediction_list =
      (List.range k).map (emittedAt M p init_states fo ts) := by
  induction k with
  | zero => rfl
  | succ k ih =>
    have hstep := loopTo_succ M p init_states fo ts k
    have hemit : emittedAt M p init_states fo ts k =
        maskBlend M (ts k)
          (p (loopTo M p init_states fo ts k).prev_state
             (loopTo M p init_states fo ts k).prev_prev_state
             (fo.getD k (fun _ _ _ => 0))).1 := by
      rw [emittedAt_eq_blend]
      simp [candidateAt, prevAt, prevPrevAt, forcingAt]
    rw [List.range_succ, List.map_append, List.map_cons, List.map_nil, ← ih,
      hstep, hemit]
    rfl

theorem prevAt_succ_eq_emittedAt {α : Type} [CommRing α] (M : Model α)
    (p : Predictor α) (init_states : GridState α × GridState α)
    (fo : List (GridForce α)) (ts : Nat → GridState α) (i : Nat) :
    prevAt M p init_states fo ts (i + 1) = emittedAt M p init_states fo ts i := by
  unfold prevAt emittedAt
  rw [loopTo_succ]
  rw [show (unrollStep M p fo ts (loopTo M p init_states fo ts i) i).prediction_list
      = (loopTo M p init_states fo ts i).prediction_list ++
        [(unrollStep M p fo ts (loopTo M p init_states fo ts i) i).prev_state]
    from rfl]
  rw [List.getD_eq_getElem?_getD,
    List.getElem?_append_right (by rw [loopTo_prediction_length]),
    loopTo_prediction_length]
  simp

theorem prevPrevAt_succ_eq_prevAt {α : Type} [CommRing α] (M : Model α)
    (p : Predictor α) (init_states : GridState α × GridState α)
    (fo : List (GridForce α)) (ts : Nat → GridState α) (i : Nat) :
    prevPrevAt M p init_states fo ts (i + 1) = prevAt M p init_states fo ts i := by
  unfold prevPrevAt prevAt
  rw [loopTo_succ]
  rfl

theorem loopTo_pred_std_list_of_output_std {α : Type} [CommRing α] (M : Model α)
    (p : Predictor α) (init_states : GridState α × GridState α)
    (fo : List (GridForce α)) (ts : Nat → GridState α)
    (hstd : M.output_std = true) (k : Nat) :
    (loopTo M p init_states fo ts k).pred_std_list =
      (List.range k).map (fun i =>
        (p (prevAt M p init_states fo ts i) (prevPrevAt M p init_states fo ts i)
           (forcingAt fo i)).2) := by
  induction k with
  | zero => rfl
  | succ k ih =>
    rw [loopTo_succ, List.range_succ, List.map_append, List.map_cons, List.map_nil,
      ← ih]
    show (if M.output_std then _ ++ [_] else _) = _
    rw [hstd]
    rfl

theorem loopTo_congr_true_states {α : Type} [CommRing α] (M : Model α)
    (p : Predictor α) (init_states : GridState α × GridState α)
    (fo : List (GridForce α)) (ts₁ ts₂ : Nat → GridState α) (k : Nat)
    (h : ∀ i < k, ts₁ i = ts₂ i) :
    loopTo M p init_states fo ts₁ k = loopTo M p init_states fo ts₂ k := by
  induction k with
  | zero => rfl
  | succ k ih =>
    rw [loopTo_succ, loopTo_succ,
      ih (fun i hi => h i (Nat.lt_succ_of_lt hi))]
    simp [unrollStep, h k (Nat.lt_succ_self k)]

theorem allSome_map_some {σ : Type} (l : List σ) : allSome (l.map some) = some l := by
  induction l with
  | nil => rfl
  | cons x rest ih => simp [allSome, ih]

theorem allSome_of_none_mem {σ : Type} (l : List (Option σ)) (h : none ∈ l) :
    allSome l = none := by
  induction l with
  | nil => exact absurd h (List.not_mem_nil _)
  | cons x rest ih =>
    cases x with
    | none => rfl
    | some v =>
      rcases List.mem_cons.mp h with he | hmem
      · exact absurd he.symm (by simp)
      · simp [allSome, ih hmem]

theorem insertPair_length (x : String × Int) (l : List (String × Int)) :
    (insertPair x l).length = l.length + 1 := by
  induction l with
  | nil => rfl
  | cons y ys ih =>
    by_cases h : pairLe x y
    · simp [insertPair, h]
    · simp [insertPair, h, ih]

theorem sortedPairs_length (l : List (String × Int)) :
    (sortedPairs l).length = l.length := by
  induction l with
  | nil => rfl
  | cons x xs ih =>
    show (insertPair x (sortedPairs xs)).length = xs.length + 1
    rw [insertPair_length, ih]

theorem addIndex_joinVals_perm (m : List (String × List Nat)) (name : String)
    (i : Nat) : (joinVals (addIndex m name i)).Perm (joinVals m ++ [i]) := by
  induction m with
  | nil => simp [addIndex, joinVals]
  | cons p rest ih =>
    obtain ⟨n, l⟩ := p
    by_cases h : n = name
    · simp only [addIndex, if_pos h, joinVals, List.map_cons, List.flatten_cons]
      rw [List.append_assoc, List.append_assoc]
      exact List.Perm.append_left l
        (@List.perm_append_comm Nat [i] ((rest.map Prod.snd).flatten))
    · simp only [addIndex, if_neg h, joinVals, List.map_cons, List.flatten_cons]
      rw [List.append_assoc]
      exact List.Perm.append_left l (by simpa [joinVals] using ih)

theorem buildLoop_joinVals_perm (vars : List (String × Int)) (k : Nat)
    (m : List (String × List Nat)) :
    (joinVals (buildLoop vars k m)).Perm (joinVals m ++ List.range' k vars.length) := by
  induction vars generalizing k m with
  | nil => simp [buildLoop, joinVals]
  | cons p rest ih =>
    obtain ⟨name, lvl⟩ := p
    show (joinVals (buildLoop rest (k + 1) (addIndex m name k))).Perm _
    refine (ih (k + 1) (addIndex m name k)).trans ?_
    have h1 : (joinVals (addIndex m name k) ++ List.range' (k + 1) rest.length).Perm
        ((joinVals m ++ [k]) ++ List.range' (k + 1) rest.length) :=
      (addIndex_joinVals_perm m name k).append_right _
    refine h1.trans ?_
    rw [List.append_assoc]
    have : List.range' k (rest.length + 1) = k :: List.range' (k + 1) rest.length :=
      List.range'_succ k rest.length 1
    rw [List.length_cons, this]
    rfl

theorem addIndex_chain_bound (m : List (String × List Nat)) (name : String) (i : Nat)
    (h : ∀ l ∈ m.map Prod.snd, List.Chain' (fun a b => a < b) l ∧ ∀ x ∈ l, x < i) :
    ∀ l ∈ (addIndex m name i).map Prod.snd,
      List.Chain' (fun a b => a < b) l ∧ ∀ x ∈ l, x < i + 1 := by
  induction m with
  | nil =>
    intro l hl
    simp only [addIndex, List.map_cons, List.map_nil] at hl
    rcases List.mem_cons.mp hl with he | he
    · subst he
      exact ⟨List.chain'_singleton i, by simp⟩
    · exact absurd he (List.not_mem_nil _)
  | cons p rest ih =>
    obtain ⟨n, l₀⟩ := p
    have hhead := h l₀ (by simp)
    have htail : ∀ l ∈ rest.map Prod.snd,
        List.Chain' (fun a b => a < b) l ∧ ∀ x ∈ l, x < i :=
      fun l hl => h l (by simp [hl])
    by_cases hn : n = name
    · intro l hl
      simp only [addIndex, if_pos hn, List.map_cons] at hl
      rcases List.mem_cons.mp hl with he | he
      · subst he
        refine ⟨?_, ?_⟩
        · rw [List.chain'_append]
          refine ⟨hhead.1, List.chain'_singleton i, ?_⟩
          intro x hx y hy
          simp only [List.head?_cons, Option.mem_def, Option.some.injEq] at hy
          subst hy
          exact hhead.2 x (List.mem_of_mem_getLast? hx)
        · intro x hx
          rcases List.mem_append.mp hx with hx | hx
          · exact Nat.lt_succ_of_lt (hhead.2 x hx)
          · simp only [List.mem_singleton] at hx
            omega
      · obtain ⟨h1, h2⟩ := htail l he
        exact ⟨h1, fun x hx => Nat.lt_succ_of_lt (h2 x hx)⟩
    · intro l hl
      simp only [addIndex, if_neg hn, List.map_cons] at hl
      rcases List.mem_cons.mp hl with he | he
      · subst he
        exact ⟨hhead.1, fun x hx => Nat.lt_succ_of_lt (hhead.2 x hx)⟩
      · exact ih htail l he

theorem buildLoop_chain (vars : List (String × Int)) (k : Nat)
    (m : List (String × List Nat))
    (h : ∀ l ∈ m.map Prod.snd, List.Chain' (fun a b => a < b) l ∧ ∀ x ∈ l, x < k) :
    ∀ l ∈ (buildLoop vars k m).map Prod.snd, List.Chain' (fun a b => a < b) l := by
  induction vars generalizing k m with
  | nil => exact fun l hl => (h l hl).1
  | cons p rest ih =>
    obtain ⟨name, lvl⟩ := p
    exact ih (k + 1) (addIndex m name k) (addIndex_chain_bound m name k h)

/-- C1: for every rollout with at least one prediction step, the state
emitted at step i equals border_mask * true_states[i] + interior_mask *
candidate, with candidate the predictor's output for step i; at every
node where border_mask is 1 (hence interior_mask, registered as
1 - border_mask, is 0) the emitted state agrees exactly with
true_states[i]; after emitting, prev_prev becomes prev and prev becomes
the emitted state; and the stacked prediction is the sequence of emitted
states. -/
theorem unroll_blend_border_advance {α : Type} [CommRing α] (M : Model α)
    (p : Predictor α) (init_states : GridState α × GridState α)
    (fo : List (GridForce α)) (ts : Nat → GridState α) (i b n f : Nat)
    (hi : i < fo.length) (hb : M.border_mask n = 1) :
    emittedAt M p init_states fo ts i =
        maskBlend M (ts i) (candidateAt M p init_states fo ts i)
    ∧ candidateAt M p init_states fo ts i =
        (p (prevAt M p init_states fo ts i) (prevPrevAt M p init_states fo ts i)
           (forcingAt fo i)).1
    ∧ emittedAt M p init_states fo ts i b n f = ts i b n f
    ∧ prevAt M p init_states fo ts (i + 1) = emittedAt M p init_states fo ts i
    ∧ prevPrevAt M p init_states fo ts (i + 1) = prevAt M p init_states fo ts i
    ∧ (loopTo M p init_states fo ts fo.length).prediction_list =
        (List.range fo.length).map (emittedAt M p init_states fo ts) := by
  refine ⟨emittedAt_eq_blend M p init_states fo ts i, rfl, ?_,
    prevAt_succ_eq_emittedAt M p init_states fo ts i,
    prevPrevAt_succ_eq_prevAt M p init_states fo ts i,
    loopTo_prediction_list_eq_map M p init_states fo ts fo.length⟩
  rw [emittedAt_eq_blend]
  show M.border_mask n * ts i b n f +
      interiorMask M n * candidateAt M p init_states fo ts i b n f = ts i b n f
  rw [interiorMask, hb]
  ring

/-- Witness for C1 at a concrete one-step rollout over ℚ, node 0 on the
border. -/
theorem unroll_blend_border_advance_witness :
    emittedAt Mq pq (sQ, sQ2) foQ tsQ 0 =
        maskBlend Mq (tsQ 0) (candidateAt Mq pq (sQ, sQ2) foQ tsQ 0)
    ∧ candidateAt Mq pq (sQ, sQ2) foQ tsQ 0 =
        (pq (prevAt Mq pq (sQ, sQ2) foQ tsQ 0) (prevPrevAt Mq pq (sQ, sQ2) foQ tsQ 0)
           (forcingAt foQ 0)).1
    ∧ emittedAt Mq pq (sQ, sQ2) foQ tsQ 0 0 0 0 = tsQ 0 0 0 0
    ∧ prevAt Mq pq (sQ, sQ2) foQ tsQ 1 = emittedAt Mq pq (sQ, sQ2) foQ tsQ 0
    ∧ prevPrevAt Mq pq (sQ, sQ2) foQ tsQ 1 = prevAt Mq pq (sQ, sQ2) foQ tsQ 0
    ∧ (loopTo Mq pq (sQ, sQ2) foQ tsQ foQ.length).prediction_list =
        (List.range foQ.length).map (emittedAt Mq pq (sQ, sQ2) foQ tsQ) :=
  unroll_blend_border_advance Mq pq (sQ, sQ2) foQ tsQ 0 0 0 0 (by decide) rfl

/-- C4 counterexample: with zero prediction steps the rollout does not
return an empty prediction sequence; torch.stack of the empty prediction
list raises (RuntimeError), so the call fails. -/
theorem unroll_zero_steps_raises :
    (unroll_prediction Mq pq (sQ, sQ2) ([] : List (GridForce ℚ)) tsQ).1 =
      Except.error TorchError.emptyStack := rfl

/-- C4 amended: with zero prediction steps the predictor is never called
and no state is emitted, but the rollout is not a well-defined no-op: it
fails when stacking the empty prediction list instead of returning an
empty sequence. -/
theorem unroll_zero_steps_no_calls {α : Type} [CommRing α] (M : Model α)
    (p : Predictor α) (init_states : GridState α × GridState α)
    (ts : Nat → GridState α) :
    (unroll_prediction M p init_states ([] : List (GridForce α)) ts).2 = []
    ∧ (unroll_prediction M p init_states ([] : List (GridForce α)) ts).1 =
        Except.error TorchError.emptyStack :=
  ⟨rfl, rfl⟩

/-- C6: when output_std is on and the injected predictor answers None for
the std component at every call, a rollout with at least one step fails:
torch.stack meets a None element in pred_std_list.  This is the failure
the specification files under ConfigurationError (output_std contract
violation). -/
theorem unroll_none_std_fails {α : Type} [CommRing α] (M : Model α)
    (p : Predictor α) (init_states : GridState α × GridState α)
    (fo : List (GridForce α)) (ts : Nat → GridState α)
    (hstd : M.output_std = true)
    (hp : ∀ a b c, (p a b c).2 = none)
    (h0 : 0 < fo.length) :
    (unroll_prediction M p init_states fo ts).1 =
      Except.error TorchError.noneElement := by
  have hlen := loopTo_prediction_length M p init_states fo ts fo.length
  have hstack : torchStack
      (loopTo M p init_states fo ts fo.length).prediction_list =
      Except.ok (loopTo M p init_states fo ts fo.length).prediction_list := by
    unfold torchStack
    rw [if_neg]
    rw [List.isEmpty_iff]
    intro hcon
    rw [hcon] at hlen
    simp only [List.length_nil] at hlen
    omega
  have hlist := loopTo_pred_std_list_of_output_std M p init_states fo ts hstd
    fo.length
  have hmem : (none : Option (GridState α)) ∈
      (loopTo M p init_states fo ts fo.length).pred_std_list := by
    rw [hlist]
    exact List.mem_map.mpr ⟨0, List.mem_range.mpr h0, hp _ _ _⟩
  have hstds : torchStackOptional
      (loopTo M p init_states fo ts fo.length).pred_std_list =
      Except.error TorchError.noneElement := by
    unfold torchStackOptional
    rw [if_neg, allSome_of_none_mem _ hmem]
    rw [List.isEmpty_iff]
    intro hcon
    rw [hcon] at hmem
    exact absurd hmem (List.not_mem_nil _)
  show (match torchStack (loopTo M p init_states fo ts fo.length).prediction_list
      with
    | .error e => Except.error e
    | .ok prediction =>
      if M.output_std then
        match torchStackOptional
            (loopTo M p init_states fo ts fo.length).pred_std_list with
        | .error e => Except.error e
        | .ok stds => Except.ok (prediction, StdOut.perStep stds)
      else Except.ok (prediction, StdOut.static M.per_var_std)) =
    Except.error TorchError.noneElement
  rw [hstack, hstd, hstds]
  rfl

/-- Witness for C6: a concrete one-step rollout with output_std enabled
and a predictor that never reports std. -/
theorem unroll_none_std_fails_witness :
    (unroll_prediction Mq2 pq (sQ, sQ2) foQ tsQ).1 =
      Except.error TorchError.noneElement :=
  unroll_none_std_fails Mq2 pq (sQ, sQ2) foQ tsQ rfl (fun _ _ _ => rfl) (by decide)

/-- C10: the step count of a rollout is forcing_features.shape[1]: the
predictor is called exactly that many times, exactly that many states are
emitted, and true_states is read only at indices below that count, so two
ground-truth sequences agreeing there produce identical rollouts. -/
theorem unroll_steps_from_forcing {α : Type} [CommRing α] (M : Model α)
    (p : Predictor α) (init_states : GridState α × GridState α)
    (fo : List (GridForce α)) (ts₁ ts₂ : Nat → GridState α)
    (hts : ∀ i < fo.length, ts₁ i = ts₂ i) :
    (unroll_prediction M p init_states fo ts₁).2.length = fo.length
    ∧ (loopTo M p init_states fo ts₁ fo.length).prediction_list.length = fo.length
    ∧ unroll_prediction M p init_states fo ts₁ =
        unroll_prediction M p init_states fo ts₂ := by
  refine ⟨?_, loopTo_prediction_length M p init_states fo ts₁ fo.length, ?_⟩
  · show (loopTo M p init_states fo ts₁ fo.length).calls.length = fo.length
    exact loopTo_calls_length M p init_states fo ts₁ fo.length
  · unfold unroll_prediction
    rw [loopTo_congr_true_states M p init_states fo ts₁ ts₂ fo.length hts]

/-- Witness for C10: tsQ and tsQ2 agree at step 0 only, and a one-step
rollout cannot tell them apart. -/
theorem unroll_steps_from_forcing_witness :
    (unroll_prediction Mq pq (sQ, sQ2) foQ tsQ).2.length = foQ.length
    ∧ (loopTo Mq pq (sQ, sQ2) foQ tsQ foQ.length).prediction_list.length = foQ.length
    ∧ unroll_prediction Mq pq (sQ, sQ2) foQ tsQ =
        unroll_prediction Mq pq (sQ, sQ2) foQ tsQ2 :=
  unroll_steps_from_forcing Mq pq (sQ, sQ2) foQ tsQ tsQ2
    (by
      intro i hi
      have h0 : i = 0 := by
        have : foQ.length = 1 := rfl
        omega
      subst h0
      rfl)

/-- C9: when output_std is off, a successful rollout returns as
uncertainty the static vector stored at construction,
step_diff_std / sqrt(param_weights), a term mentioning neither the batch,
the forcing, the ground truth nor the step count; when output_std is on,
it returns the stack of the per-step std tensors produced by the
predictor. -/
theorem unroll_std_output_modes
    (M₁ M₂ : Model ℝ) (sds pw : Nat → ℝ) (p₁ p₂ : Predictor ℝ)
    (g : GridState ℝ → GridState ℝ → GridForce ℝ → GridState ℝ)
    (is₁ is₂ : GridState ℝ × GridState ℝ)
    (fo₁ fo₂ : List (GridForce ℝ)) (ts₁ ts₂ : Nat → GridState ℝ)
    (hpv : M₁.per_var_std = per_var_std_init sds pw)
    (h₁ : M₁.output_std = false) (h₂ : M₂.output_std = true)
    (hg : ∀ a b c, (p₂ a b c).2 = some (g a b c))
    (h01 : 0 < fo₁.length) (h02 : 0 < fo₂.length) :
    (unroll_prediction M₁ p₁ is₁ fo₁ ts₁).1 =
      Except.ok ((List.range fo₁.length).map (emittedAt M₁ p₁ is₁ fo₁ ts₁),
        StdOut.static (per_var_std_init sds pw))
    ∧ (unroll_prediction M₂ p₂ is₂ fo₂ ts₂).1 =
      Except.ok ((List.range fo₂.length).map (emittedAt M₂ p₂ is₂ fo₂ ts₂),
        StdOut.perStep ((List.range fo₂.length).map (fun i =>
          g (prevAt M₂ p₂ is₂ fo₂ ts₂ i) (prevPrevAt M₂ p₂ is₂ fo₂ ts₂ i)
            (forcingAt fo₂ i)))) := by
  constructor
  · have hlen := loopTo_prediction_length M₁ p₁ is₁ fo₁ ts₁ fo₁.length
    have hstack : torchStack (loopTo M₁ p₁ is₁ fo₁ ts₁ fo₁.length).prediction_list
        = Except.ok ((List.range fo₁.length).map (emittedAt M₁ p₁ is₁ fo₁ ts₁)) := by
      unfold torchStack
      rw [if_neg (by
        rw [List.isEmpty_iff]
        intro hcon
        rw [hcon] at hlen
        simp only [List.length_nil] at hlen
        omega)]
      rw [loopTo_prediction_list_eq_map]
    rw [unroll_prediction_fst, hstack, h₁, hpv]
    rfl
  · have hlen := loopTo_prediction_length M₂ p₂ is₂ fo₂ ts₂ fo₂.length
    have hstack : torchStack (loopTo M₂ p₂ is₂ fo₂ ts₂ fo₂.length).prediction_list
        = Except.ok ((List.range fo₂.length).map (emittedAt M₂ p₂ is₂ fo₂ ts₂)) := by
      unfold torchStack
      rw [if_neg (by
        rw [List.isEmpty_iff]
        intro hcon
        rw [hcon] at hlen
        simp only [List.length_nil] at hlen
        omega)]
      rw [loopTo_prediction_list_eq_map]
    have hsome : (loopTo M₂ p₂ is₂ fo₂ ts₂ fo₂.length).pred_std_list =
        ((List.range fo₂.length).map (fun i =>
          g (prevAt M₂ p₂ is₂ fo₂ ts₂ i) (prevPrevAt M₂ p₂ is₂ fo₂ ts₂ i)
            (forcingAt fo₂ i))).map some := by
      rw [loopTo_pred_std_list_of_output_std M₂ p₂ is₂ fo₂ ts₂ h₂ fo₂.length,
        List.map_map]
      apply List.map_congr_left
      intro i hi
      rw [hg]
      rfl
    have hstds : torchStackOptional
        (loopTo M₂ p₂ is₂ fo₂ ts₂ fo₂.length).pred_std_list =
        Except.ok ((List.range fo₂.length).map (fun i =>
          g (prevAt M₂ p₂ is₂ fo₂ ts₂ i) (prevPrevAt M₂ p₂ is₂ fo₂ ts₂ i)
            (forcingAt fo₂ i))) := by
      have hnemp : ¬ ((((List.range fo₂.length).map (fun i =>
          g (prevAt M₂ p₂ is₂ fo₂ ts₂ i) (prevPrevAt M₂ p₂ is₂ fo₂ ts₂ i)
            (forcingAt fo₂ i))).map some).isEmpty = true) := by
        simp only [List.isEmpty_iff, List.map_eq_nil_iff, List.range_eq_nil]
        omega
      unfold torchStackOptional
      rw [hsome, if_neg hnemp, allSome_map_some]
    rw [unroll_prediction_fst, hstack, h₂, hstds]
    rfl

/-- Witness for C9 at one-step rollouts over ℝ. -/
theorem unroll_std_output_modes_witness :
    (unroll_prediction Mr1 prR (sR, sR) foR tsR).1 =
      Except.ok ((List.range foR.length).map (emittedAt Mr1 prR (sR, sR) foR tsR),
        StdOut.static (per_var_std_init sdsR pwR))
    ∧ (unroll_prediction Mr2 prR (sR, sR) foR tsR).1 =
      Except.ok ((List.range foR.length).map (emittedAt Mr2 prR (sR, sR) foR tsR),
        StdOut.perStep ((List.range foR.length).map (fun i =>
          gR (prevAt Mr2 prR (sR, sR) foR tsR i)
            (prevPrevAt Mr2 prR (sR, sR) foR tsR i) (forcingAt foR i)))) :=
  unroll_std_output_modes Mr1 Mr2 sdsR pwR prR prR gR (sR, sR) (sR, sR) foR foR
    tsR tsR rfl rfl rfl (fun _ _ _ => rfl) (by decide) (by decide)

/-- C2: a metric whose name contains "mse" is reported as the
per-variable std times the square root of the mean over the full gathered
batch axis (the root strictly after the mean) and renamed to its "rmse"
form; every other metric is reported as its gathered mean times the
per-variable std, name unchanged. -/
theorem aggregate_metric_rmse_after_mean (name other : String)
    (wls wls2 : List (List (List (Nat → Nat → ℝ)))) (std : Nat → ℝ) (s v : Nat)
    (h1 : strContains name "mse" = true) (h2 : strContains other "mse" = false) :
    (aggregate_metric name wls std).1 = pyReplace name "mse" "rmse"
    ∧ (aggregate_metric name wls std).2 s v =
        std v * Real.sqrt (batchMean (all_gather_cat (wls.map torchCat)) s v)
    ∧ (aggregate_metric other wls2 std).1 = other
    ∧ (aggregate_metric other wls2 std).2 s v =
        std v * batchMean (all_gather_cat (wls2.map torchCat)) s v := by
  refine ⟨?_, ?_, ?_, ?_⟩ <;>
    simp [aggregate_metric, h1, h2, mul_comm]

/-- Witness for C2: mean of 4.0 and 16.0 is 10.0, reported rmse is
2 * sqrt 10 (the sqrt strictly after the mean), and a non-mse metric is
reported as 2 * 10 = 20. -/
theorem aggregate_metric_rmse_after_mean_witness :
    (aggregate_metric "mse" W2 std2).1 = "rmse"
    ∧ (aggregate_metric "mse" W2 std2).2 0 0 = 2 * Real.sqrt 10
    ∧ (aggregate_metric "mae" W2 std2).1 = "mae"
    ∧ (aggregate_metric "mae" W2 std2).2 0 0 = 20 := by
  obtain ⟨ha, hb, hc, hd⟩ := aggregate_metric_rmse_after_mean "mse" "mae" W2 W2
    std2 0 0 (by decide) (by decide)
  have hmean : batchMean (all_gather_cat (W2.map torchCat)) 0 0 = 10 := by
    simp [batchMean, all_gather_cat, torchCat, W2]
    norm_num
  refine ⟨?_, ?_, hc, ?_⟩
  · rw [ha]
    decide
  · rw [hb, hmean]
    norm_num [std2]
  · rw [hd, hmean]
    norm_num [std2]

/-- C3 (code bug): the variable-index computation evaluated at one 2-D
variable T_2M and one 3-D variable OTHER with vertical levels [1, 2].
Line 138 tests the truthiness of the whole var_is_3d container instead of
var_is_3d[var_name], so the 2-D variable T_2M is also expanded over both
vertical levels and receives positions [2, 3] instead of the single
position of (T_2M, 0). -/
theorem pre_compute_variable_indices_buggy_eval :
    pre_compute_variable_indices ["T_2M", "OTHER"]
        [("T_2M", false), ("OTHER", true)] [1, 2] =
      [("OTHER", [0, 1]), ("T_2M", [2, 3])] := by
  decide

/-- C8: for every input, the index lists returned by the variable-index
computation partition [0, total_length): their concatenation is a
permutation of range(total_length) (every position in exactly one list,
no gaps, no duplicates) and each list is strictly ascending. -/
theorem variable_indices_partition (var_names : List String)
    (var_is_3d : List (String × Bool)) (vertical_levels : List Int) :
    ((pre_compute_variable_indices var_names var_is_3d vertical_levels).map
        Prod.snd).flatten.Perm
      (List.range (allVarsList var_names var_is_3d vertical_levels).length)
    ∧ ∀ l ∈ (pre_compute_variable_indices var_names var_is_3d
        vertical_levels).map Prod.snd, List.Chain' (fun a b => a < b) l := by
  constructor
  · have h := buildLoop_joinVals_perm
      (sortedPairs (allVarsList var_names var_is_3d vertical_levels)) 0 []
    unfold pre_compute_variable_indices
    have hj : joinVals (buildLoop
        (sortedPairs (allVarsList var_names var_is_3d vertical_levels)) 0 []) =
        ((buildLoop (sortedPairs (allVarsList var_names var_is_3d
          vertical_levels)) 0 []).map Prod.snd).flatten := rfl
    rw [← hj]
    refine h.trans ?_
    rw [show joinVals [] = [] from rfl, List.nil_append,
      sortedPairs_length, ← List.range_eq_range']
  · exact buildLoop_chain _ 0 []
      (fun l hl => absurd hl (by simp))

/-- Witness for C8 at a one-variable input: the single index list [0]
partitions [0, 1) and is strictly ascending. -/
theorem variable_indices_partition_witness :
    ((pre_compute_variable_indices ["a"] [] []).map Prod.snd).flatten.Perm
      (List.range (allVarsList ["a"] [] []).length)
    ∧ List.Chain' (fun a b => a < b) [0] :=
  ⟨(variable_indices_partition ["a"] [] []).1,
   (variable_indices_partition ["a"] [] []).2 [0] (by decide)⟩

/-- C5 counterexample: after on_test_epoch_end the test_metrics
accumulator lists are not emptied - the stored mse list still holds its
batch tensor, refuting the claim that every per-metric accumulator list is
empty when the epoch-end handler returns. -/
theorem test_epoch_end_keeps_test_metrics :
    ¬ (∀ l ∈ (on_test_epoch_end s5c).test_metrics.map Prod.snd,
        l = ([] : List Nat)) := by
  decide

/-- C5 amended: on_validation_epoch_end empties every val_metrics list
(keeping the metric names); on_test_epoch_end clears spatial_loss_maps
but leaves the test_metrics lists untouched (they are not cleared). -/
theorem epoch_end_clearing {τ : Type} (s : MetricsState τ) :
    (∀ p ∈ (on_validation_epoch_end s).val_metrics, p.2 = ([] : List τ))
    ∧ (on_validation_epoch_end s).val_metrics.map Prod.fst =
        s.val_metrics.map Prod.fst
    ∧ (on_test_epoch_end s).test_metrics = s.test_metrics
    ∧ (on_test_epoch_end s).spatial_loss_maps = [] := by
  refine ⟨?_, ?_, rfl, rfl⟩
  · intro p hp
    simp only [on_validation_epoch_end, List.mem_map] at hp
    obtain ⟨q, hq, he⟩ := hp
    rw [← he]
  · simp [on_validation_epoch_end]

/-- Witness for C5 (amended) at the concrete accumulator state s5c. -/
theorem epoch_end_clearing_witness :
    (("mse", ([] : List Nat)) : String × List Nat).2 = []
    ∧ (on_test_epoch_end s5c).test_metrics = s5c.test_metrics
    ∧ (on_test_epoch_end s5c).spatial_loss_maps = [] :=
  ⟨(epoch_end_clearing s5c).1 ("mse", []) (by decide),
   (epoch_end_clearing s5c).2.2.1, (epoch_end_clearing s5c).2.2.2⟩

/-- C7 counterexample: the migration is not value-preserving on keys that
do not match the old prefix - when both the old key and its rename target
exist, the target's value is overwritten by the old key's value (2
becomes 1), refuting the claim that keys not matching the old prefix are
unchanged and already-renamed keys are untouched. -/
theorem on_load_checkpoint_overwrites_target :
    dictLookup (on_load_checkpoint dCol) "encoding_grid_mlp.0.weight" = some 1
    ∧ dictLookup dCol "encoding_grid_mlp.0.weight" = some 2 := by
  decide

/-- C7 amended: the migration is idempotent on every state dict; and on a
dict with unique keys in which the guard key is present, a key k₁ not
matching the old prefix and not the rename target of any matching key
keeps its value, while a matching key k₂ whose rename target collides
with no other rename sees its value carried to the renamed key. -/
theorem on_load_checkpoint_migration {τ : Type} (d₀ d : List (String × τ))
    (k₁ k₂ : String)
    (hnd : (dictKeys d).Nodup)
    (hg : containsKey d guardKey = true)
    (h₁ : pyStartsWith k₁ oldPref = false)
    (h₁r : ∀ k ∈ dictKeys d, pyStartsWith k oldPref = true → renameKey k ≠ k₁)
    (h₂ : k₂ ∈ dictKeys d) (h₂s : pyStartsWith k₂ oldPref = true)
    (h₂i : ∀ k ∈ dictKeys d, pyStartsWith k oldPref = true → k ≠ k₂ →
      renameKey k ≠ renameKey k₂) :
    on_load_checkpoint (on_load_checkpoint d₀) = on_load_checkpoint d₀
    ∧ dictLookup (on_load_checkpoint d) k₁ = dictLookup d k₁
    ∧ dictLookup (on_load_checkpoint d) (renameKey k₂) = dictLookup d k₂ := by
  refine ⟨on_load_checkpoint_idem d₀, ?_, ?_⟩
  · rw [on_load_checkpoint_of_guard d hg]
    apply foldl_migrateStep_lookup_pres
    intro k hk
    have hmem := (List.mem_filter.mp hk).1
    have hsw := (List.mem_filter.mp hk).2
    refine ⟨?_, h₁r k hmem hsw⟩
    intro he
    rw [he, h₁] at hsw
    exact absurd hsw (by simp)
  · rw [on_load_checkpoint_of_guard d hg]
    apply foldl_migrateStep_rename
    · exact List.Nodup.filter _ hnd
    · exact List.mem_filter.mpr ⟨h₂, h₂s⟩
    · exact fun k hk => (List.mem_filter.mp hk).2
    · exact fun k hk hne =>
        h₂i k (List.mem_filter.mp hk).1 (List.mem_filter.mp hk).2 hne
    · exact (containsKey_iff_mem_keys d k₂).mpr h₂

/-- Witness for C7 at concrete state dicts. -/
theorem on_load_checkpoint_migration_witness :
    on_load_checkpoint (on_load_checkpoint d0W) = on_load_checkpoint d0W
    ∧ dictLookup (on_load_checkpoint dW) "other" = dictLookup dW "other"
    ∧ dictLookup (on_load_checkpoint dW)
        (renameKey "g2m_gnn.grid_mlp.0.weight") =
      dictLookup dW "g2m_gnn.grid_mlp.0.weight" :=
  on_load_checkpoint_migration d0W dW "other" "g2m_gnn.grid_mlp.0.weight"
    (by decide) (by decide) (by decide) (by decide) (by decide) (by decide)
    (by decide)
